import Mathlib

set_option maxHeartbeats 1000000

namespace Cmilan

/-- Arithmetic operator sub-kinds delivered by the scanner (scanner.hpp, used in
parser.cpp via getArithmeticValue). -/
inductive Arith where
| A_PLUS
| A_MINUS
| A_MULTIPLY
| A_DIVIDE
deriving DecidableEq, Repr

/-- Comparison operator sub-kinds delivered by the scanner (getCmpValue). -/
inductive Cmp where
| C_EQ
| C_NE
| C_LT
| C_GT
| C_LE
| C_GE
deriving DecidableEq, Repr

/-- Tokens of the Milan language, with the decoded payload the scanner attaches
to literal, identifier and operator-class tokens.  Float literals are modelled
as rationals: the claims under study only depend on which representation
(integer or floating) a literal is pushed with and on truncation toward zero,
never on binary floating-point rounding. -/
inductive Tok where
| T_EOF
| T_BEGIN
| T_END
| T_SEMICOLON
| T_INT
| T_FLOAT
| T_IDENTIFIER (name : String)
| T_ASSIGN
| T_IF
| T_THEN
| T_ELSE
| T_FI
| T_WHILE
| T_DO
| T_OD
| T_WRITE
| T_LPAREN
| T_RPAREN
| T_READ
| T_NUMBER (v : Int)
| T_RNUMBER (v : Rat)
| T_ADDOP (op : Arith)
| T_MULOP (op : Arith)
| T_CMP (c : Cmp)
deriving DecidableEq, Repr

/-- Token kinds: what the C++ Token enumeration compares (see/match compare
kinds only, payloads are fetched separately through the scanner). -/
inductive TkKind where
| T_EOF
| T_BEGIN
| T_END
| T_SEMICOLON
| T_INT
| T_FLOAT
| T_IDENTIFIER
| T_ASSIGN
| T_IF
| T_THEN
| T_ELSE
| T_FI
| T_WHILE
| T_DO
| T_OD
| T_WRITE
| T_LPAREN
| T_RPAREN
| T_READ
| T_NUMBER
| T_RNUMBER
| T_ADDOP
| T_MULOP
| T_CMP
deriving DecidableEq, Repr

/-- The kind of a token. -/
def Tok.kind : Tok → TkKind
| .T_EOF => .T_EOF
| .T_BEGIN => .T_BEGIN
| .T_END => .T_END
| .T_SEMICOLON => .T_SEMICOLON
| .T_INT => .T_INT
| .T_FLOAT => .T_FLOAT
| .T_IDENTIFIER _ => .T_IDENTIFIER
| .T_ASSIGN => .T_ASSIGN
| .T_IF => .T_IF
| .T_THEN => .T_THEN
| .T_ELSE => .T_ELSE
| .T_FI => .T_FI
| .T_WHILE => .T_WHILE
| .T_DO => .T_DO
| .T_OD => .T_OD
| .T_WRITE => .T_WRITE
| .T_LPAREN => .T_LPAREN
| .T_RPAREN => .T_RPAREN
| .T_READ => .T_READ
| .T_NUMBER _ => .T_NUMBER
| .T_RNUMBER _ => .T_RNUMBER
| .T_ADDOP _ => .T_ADDOP
| .T_MULOP _ => .T_MULOP
| .T_CMP _ => .T_CMP

/-- A pushed literal value: either integer or floating representation.
Mirrors the two overloads of CodeGen emit(PUSH, int) and emit(PUSH, float). -/
inductive Val where
| VInt (v : Int)
| VFloat (v : Rat)
deriving DecidableEq, Repr

/-- Stack-machine instructions emitted by the parser.  RESERVED is the
placeholder appended by CodeGen reserve() and overwritten by emitAt.
LOAD and STORE carry an optional address: it is none exactly when the
address came from the fall-off-the-end (no return executed) branch of
findVariable, i.e. the C++ value is unspecified. -/
inductive Instr where
| STOP
| ADD
| SUB
| MULT
| DIV
| INVERT
| PRINT
| INPUT
| STORE (a : Option Nat)
| LOAD (a : Option Nat)
| PUSH (v : Val)
| JUMP (a : Nat)
| JUMP_NO (a : Nat)
| COMPARE (c : Nat)
| RESERVED
deriving DecidableEq, Repr

/-- Error diagnostics recorded by reportError, by message kind.  The C++
code writes these to cerr prefixed with the line number; line tracking lives
in the external scanner and is not part of the claims. -/
inductive ErrMsg where
| mismatch (found : TkKind) (expected : TkKind)
| alreadyDeclared (name : String)
| notDeclared (name : String)
| statementExpected
| expressionExpected
| comparisonExpected
deriving DecidableEq, Repr

/-- The whole parser state: remaining token stream (head = current token),
the lastToken field, the scanner payload registers (the scanner stores the
decoded value of the token it most recently produced), the code buffer of
the code generator, the error flag and recorded diagnostics, the symbol
table (variables_), lastVar_ as its two fields, the coercion-context list
isFloatCast, and a ghost counter declCalls counting addVariable calls
(used only in statements of theorems, never read by the parser). -/
structure St where
  toks : List Tok
  lastToken : TkKind
  sInt : Int
  sRat : Rat
  sStr : String
  sArith : Arith
  sCmp : Cmp
  code : List Instr
  error : Bool
  errs : List ErrMsg
  vars : List (String × Nat × Bool)
  lastVarFst : Nat
  lastVarSnd : Bool
  isFloatCast : List Bool
  declCalls : Nat
deriving DecidableEq, Repr

/-- The current token (scanner token()): head of the stream, or T_EOF when
the stream is exhausted (the scanner keeps returning T_EOF at end of input). -/
def cur (s : St) : Tok := s.toks.headD .T_EOF

/-- Kind of the current token. -/
def curKind (s : St) : TkKind := (cur s).kind

/-- When the scanner advances onto a token it stores the decoded payload of
that token, which getIntValue / getFloatValue / getStringValue /
getArithmeticValue / getCmpValue later read back (possibly after further
advances, i.e. the registers go stale exactly as in the C++ scanner). -/
def recordPayload (s : St) : St :=
  match cur s with
  | .T_NUMBER v => { s with sInt := v }
  | .T_RNUMBER v => { s with sRat := v }
  | .T_IDENTIFIER n => { s with sStr := n }
  | .T_ADDOP a => { s with sArith := a }
  | .T_MULOP a => { s with sArith := a }
  | .T_CMP c => { s with sCmp := c }
  | _ => s

/-- scanner nextToken(): drop the current token and record the payload of the
new current token. -/
def advance (s : St) : St :=
  recordPayload { s with toks := s.toks.tail }

/-- Parser next(): remember the current kind in lastToken, then advance.
Parser match(t) is modelled inline as an ite on curKind followed by advance
(match does not update lastToken). -/
def nextTok (s : St) : St :=
  advance { s with lastToken := curKind s }

/-- reportError: record a diagnostic and set the error flag (never cleared). -/
def reportError (m : ErrMsg) (s : St) : St :=
  { s with error := true, errs := s.errs ++ [m] }

/-- CodeGen emit: append one instruction to the code buffer. -/
def emit (i : Instr) (s : St) : St :=
  { s with code := s.code ++ [i] }

/-- CodeGen getCurrentAddress: the address the next emitted instruction
will occupy. -/
def getCurrentAddress (s : St) : Nat := s.code.length

/-- CodeGen reserve: append a placeholder and return its address. -/
def reserve (s : St) : Nat × St :=
  (s.code.length, emit .RESERVED s)

/-- CodeGen emitAt: overwrite the instruction at a previously reserved
address. -/
def emitAt (a : Nat) (i : Instr) (s : St) : St :=
  { s with code := s.code.set a i }

/-- Panic-mode recovery loop of Parser recover: skip tokens (via next) until
the expected kind or T_EOF is current.  The C++ loop terminates because every
iteration consumes one token; here the loop carries a fuel argument, and
recover below passes toks.length + 1 which is provably enough, so the fuelled
function computes the same result as the C++ loop. -/
def recoverLoop (k : TkKind) : Nat → St → St
| 0, s => s
| n + 1, s =>
  if curKind s = k ∨ curKind s = .T_EOF then s
  else recoverLoop k n (nextTok s)

/-- Parser recover: skip to the expected token kind; if found, consume it. -/
def recover (k : TkKind) (s : St) : St :=
  if curKind (recoverLoop k (s.toks.length + 1) s) = k then
    nextTok (recoverLoop k (s.toks.length + 1) s)
  else recoverLoop k (s.toks.length + 1) s

/-- Parser mustBe: consume the expected kind, or record a mismatch
diagnostic and run panic-mode recovery. -/
def mustBe (k : TkKind) (s : St) : St :=
  if curKind s = k then advance s
  else recover k (reportError (.mismatch (curKind s) k) s)

/-- Parser findVariable: return the stored address of a declared name;
for an undeclared name report the error — the C++ function then falls off
the end without executing a return statement, so the value handed to the
caller is unspecified, modelled as none. -/
def findVariable (name : String) (s : St) : Option Nat × St :=
  match List.lookup name s.vars with
  | none => (none, reportError (.notDeclared name) s)
  | some p => (some p.1, s)

/-- Parser addVariable: bind a fresh name to (lastVar_.first, isFloat), or
report a redeclaration error leaving the table untouched; in both cases
return the old counter value and increment the counter (lastVar_.first++).
The ghost field declCalls counts every call. -/
def addVariable (name : String) (isFloat : Bool) (s : St) : Nat × St :=
  let s := { s with declCalls := s.declCalls + 1 }
  match List.lookup name s.vars with
  | none =>
    (s.lastVarFst,
      { s with lastVarSnd := isFloat,
               vars := (name, s.lastVarFst, isFloat) :: s.vars,
               lastVarFst := s.lastVarFst + 1 })
  | some _ =>
    (s.lastVarFst,
      reportError (.alreadyDeclared name) { s with lastVarFst := s.lastVarFst + 1 })

/-- The trailing-operator test used twice in factor:
see(T_ADDOP) or see(T_MULOP) or see(T_CMP), and the lastToken test of the
float-literal early path. -/
def opKind (k : TkKind) : Prop :=
  k = .T_ADDOP ∨ k = .T_MULOP ∨ k = .T_CMP

instance (k : TkKind) : Decidable (opKind k) := by
  unfold opKind; infer_instance

/-- static_cast of a C++ float/double to int: truncation toward zero. -/
def ratTrunc (q : Rat) : Int := q.num.tdiv (q.den : Int)

/-- static_cast of a C++ int to float, exact at the scales relevant here. -/
def intToRat (v : Int) : Rat := (v : Rat)

/-- Comparison codes emitted by relation: = is 0, != is 1, < is 2, > is 3,
<= is 4, >= is 5. -/
def cmpCode : Cmp → Nat
| .C_EQ => 0
| .C_NE => 1
| .C_LT => 2
| .C_GT => 3
| .C_LE => 4
| .C_GE => 5

mutual

/-- Parser statement (parser.cpp lines 46-134): declarations, assignment,
if/else with backpatching, while with backpatching, write, or error. -/
def statement : Nat → St → St
| 0, s => s
| n + 1, s =>
  if curKind s = .T_INT then
    let s := advance s
    let s := mustBe .T_IDENTIFIER s
    let p := addVariable s.sStr false s
    let s := mustBe .T_ASSIGN p.2
    let s := expression n s
    emit (.STORE (some p.1)) s
  else if curKind s = .T_FLOAT then
    let s := advance s
    let s := mustBe .T_IDENTIFIER s
    let p := addVariable s.sStr true s
    let s := mustBe .T_ASSIGN p.2
    let s := expression n s
    emit (.STORE (some p.1)) s
  else if curKind s = .T_IDENTIFIER then
    let s := advance s
    let p := findVariable s.sStr s
    let s := mustBe .T_ASSIGN p.2
    let s := expression n s
    emit (.STORE p.1) s
  else if curKind s = .T_IF then
    let s := advance s
    let s := relation n s
    let r := reserve s
    let s := mustBe .T_THEN r.2
    let s := statementList n s
    if curKind s = .T_ELSE then
      let s := advance s
      let r2 := reserve s
      let s := emitAt r.1 (.JUMP_NO (getCurrentAddress r2.2)) r2.2
      let s := statementList n s
      let s := emitAt r2.1 (.JUMP (getCurrentAddress s)) s
      mustBe .T_FI s
    else
      let s := emitAt r.1 (.JUMP_NO (getCurrentAddress s)) s
      mustBe .T_FI s
  else if curKind s = .T_WHILE then
    let s := advance s
    let c := getCurrentAddress s
    let s := relation n s
    let r := reserve s
    let s := mustBe .T_DO r.2
    let s := statementList n s
    let s := mustBe .T_OD s
    let s := emit (.JUMP c) s
    emitAt r.1 (.JUMP_NO (getCurrentAddress s)) s
  else if curKind s = .T_WRITE then
    let s := advance s
    let s := mustBe .T_LPAREN s
    let s := expression n s
    let s := mustBe .T_RPAREN s
    emit .PRINT s
  else
    reportError .statementExpected s

/-- Parser statementList (lines 26-44): empty before a closing bracket kind,
otherwise statements separated by semicolons. -/
def statementList : Nat → St → St
| 0, s => s
| n + 1, s =>
  if curKind s = .T_END ∨ curKind s = .T_OD ∨ curKind s = .T_ELSE ∨ curKind s = .T_FI then s
  else stmtSeq n s

/-- The do-while(more) loop inside statementList. -/
def stmtSeq : Nat → St → St
| 0, s => s
| n + 1, s =>
  let s := statement n s
  if curKind s = .T_SEMICOLON then stmtSeq n (advance s) else s

/-- Parser expression (lines 136-162): term, then ADD/SUB chains. -/
def expression : Nat → St → St
| 0, s => s
| n + 1, s => exprLoop n (term n s)

/-- The while(see(T_ADDOP)) loop of expression. -/
def exprLoop : Nat → St → St
| 0, s => s
| n + 1, s =>
  if curKind s = .T_ADDOP then
    let op := s.sArith
    let s := nextTok s
    let s := term n s
    let s := if op = .A_PLUS then emit .ADD s else emit .SUB s
    exprLoop n s
  else s

/-- Parser term (lines 164-188): factor, then MULT/DIV chains. -/
def term : Nat → St → St
| 0, s => s
| n + 1, s => termLoop n (factor n s)

/-- The while(see(T_MULOP)) loop of term. -/
def termLoop : Nat → St → St
| 0, s => s
| n + 1, s =>
  if curKind s = .T_MULOP then
    let op := s.sArith
    let s := nextTok s
    let s := factor n s
    let s := if op = .A_MULTIPLY then emit .MULT s else emit .DIV s
    termLoop n s
  else s

/-- Parser factor (lines 190-307), including the coercion-context logic for
integer-form (T_NUMBER) and float-form (T_RNUMBER) literals, identifiers,
unary minus, parenthesized expressions with the (int)/(float) cast prefixes,
and read. -/
def factor : Nat → St → St
| 0, s => s
| n + 1, s =>
  if curKind s = .T_NUMBER then
    let s := nextTok s
    let s :=
      if opKind (curKind s) then
        if s.isFloatCast ≠ [] then
          if s.isFloatCast.headD false then
            emit (.PUSH (.VFloat (intToRat s.sInt))) s
          else s
        else emit (.PUSH (.VInt s.sInt)) s
      else if s.lastVarSnd then
        emit (.PUSH (.VFloat (intToRat s.sInt))) s
      else emit (.PUSH (.VInt s.sInt)) s
    { s with isFloatCast := [] }
  else if curKind s = .T_RNUMBER then
    if opKind s.lastToken then
      nextTok (emit (.PUSH (.VFloat s.sRat)) s)
    else
      let s := nextTok s
      let s :=
        if opKind (curKind s) then
          if s.isFloatCast ≠ [] then
            if s.isFloatCast.any (fun b => !b) then
              if s.isFloatCast.headD false then
                emit (.PUSH (.VFloat (intToRat (ratTrunc s.sRat)))) s
              else emit (.PUSH (.VInt (ratTrunc s.sRat))) s
            else s
          else emit (.PUSH (.VFloat s.sRat)) s
        else if s.lastVarSnd then
          if s.isFloatCast.any (fun b => !b) then
            emit (.PUSH (.VFloat (intToRat (ratTrunc s.sRat)))) s
          else emit (.PUSH (.VFloat s.sRat)) s
        else emit (.PUSH (.VInt (ratTrunc s.sRat))) s
      { s with isFloatCast := [] }
  else if curKind s = .T_IDENTIFIER then
    let p := findVariable s.sStr s
    let s := nextTok p.2
    emit (.LOAD p.1) s
  else if curKind s = .T_ADDOP ∧ s.sArith = .A_MINUS then
    let s := nextTok s
    let s := factor n s
    emit .INVERT s
  else if curKind s = .T_LPAREN then
    let s := advance s
    if curKind s = .T_INT then
      let s := nextTok s
      let s := { s with isFloatCast := s.isFloatCast ++ [false] }
      let s := mustBe .T_RPAREN s
      expression n s
    else if curKind s = .T_FLOAT then
      let s := nextTok s
      let s := { s with isFloatCast := s.isFloatCast ++ [true] }
      let s := mustBe .T_RPAREN s
      expression n s
    else
      let s := { s with isFloatCast := [] }
      let s := expression n s
      mustBe .T_RPAREN s
  else if curKind s = .T_READ then
    let s := advance s
    emit .INPUT s
  else
    reportError .expressionExpected s

/-- Parser relation (lines 309-351): expression CMP expression, emitting a
COMPARE with the comparison code, or the missing-comparison error. -/
def relation : Nat → St → St
| 0, s => s
| n + 1, s =>
  let s := expression n s
  if curKind s = .T_CMP then
    let c := s.sCmp
    let s := nextTok s
    let s := expression n s
    emit (.COMPARE (cmpCode c)) s
  else reportError .comparisonExpected s

end

/-- Parser program (lines 18-24): BEGIN statementList END, then STOP. -/
def program (n : Nat) (s : St) : St :=
  emit .STOP (mustBe .T_END (statementList n (mustBe .T_BEGIN s)))

/-- Parser parse (lines 9-16): run program; flush (print the instruction
sequence) only if no error was recorded.  The produced output is modelled
as some code on flush and none when flushing is suppressed. -/
def parse (n : Nat) (s : St) : St × Option (List Instr) :=
  let t := program n s
  (t, if t.error then none else some t.code)

/-- Initial parser state for a token stream: the Parser constructor performs
one next(), which loads the first token (recording its payload) while
lastToken receives the pre-first-token scanner kind, modelled as T_EOF. -/
def initSt (toks : List Tok) : St :=
  recordPayload
    { toks := toks, lastToken := .T_EOF, sInt := 0, sRat := 0, sStr := "",
      sArith := .A_PLUS, sCmp := .C_EQ, code := [], error := false, errs := [],
      vars := [], lastVarFst := 0, lastVarSnd := false, isFloatCast := [],
      declCalls := 0 }

/-- Token stream of the program begin int x = (float) 3; write(x) end. -/
def toksC1 : List Tok :=
  [.T_BEGIN, .T_INT, .T_IDENTIFIER "x", .T_ASSIGN, .T_LPAREN, .T_FLOAT, .T_RPAREN,
   .T_NUMBER 3, .T_SEMICOLON, .T_WRITE, .T_LPAREN, .T_IDENTIFIER "x", .T_RPAREN, .T_END]

/-- Token stream of the program begin int x = (int) 3 + 4 end. -/
def toksC2 : List Tok :=
  [.T_BEGIN, .T_INT, .T_IDENTIFIER "x", .T_ASSIGN, .T_LPAREN, .T_INT, .T_RPAREN,
   .T_NUMBER 3, .T_ADDOP .A_PLUS, .T_NUMBER 4, .T_END]

/-- The rational value of the source literal 2.5, built from raw numerator
and denominator so that kernel reduction can evaluate it. -/
def rat52 : Rat := Rat.mk' 5 2 (by decide) (by decide)

/-- Token stream of the program begin int x = 1; float y = (float) x + 2.5 end. -/
def toksC3 : List Tok :=
  [.T_BEGIN, .T_INT, .T_IDENTIFIER "x", .T_ASSIGN, .T_NUMBER 1, .T_SEMICOLON,
   .T_FLOAT, .T_IDENTIFIER "y", .T_ASSIGN, .T_LPAREN, .T_FLOAT, .T_RPAREN,
   .T_IDENTIFIER "x", .T_ADDOP .A_PLUS, .T_RNUMBER rat52, .T_END]

/-- Token stream of the program begin if 1 = 2 then write(1) else write(2) fi end. -/
def toksC5 : List Tok :=
  [.T_BEGIN, .T_IF, .T_NUMBER 1, .T_CMP .C_EQ, .T_NUMBER 2, .T_THEN,
   .T_WRITE, .T_LPAREN, .T_NUMBER 1, .T_RPAREN, .T_ELSE,
   .T_WRITE, .T_LPAREN, .T_NUMBER 2, .T_RPAREN, .T_FI, .T_END]

/-- Token stream of the program begin int x = 1; while x < 5 do x = x + 1 od; write(x) end. -/
def toksC6 : List Tok :=
  [.T_BEGIN, .T_INT, .T_IDENTIFIER "x", .T_ASSIGN, .T_NUMBER 1, .T_SEMICOLON,
   .T_WHILE, .T_IDENTIFIER "x", .T_CMP .C_LT, .T_NUMBER 5, .T_DO,
   .T_IDENTIFIER "x", .T_ASSIGN, .T_IDENTIFIER "x", .T_ADDOP .A_PLUS, .T_NUMBER 1,
   .T_OD, .T_SEMICOLON, .T_WRITE, .T_LPAREN, .T_IDENTIFIER "x", .T_RPAREN, .T_END]

/-- Token stream of the program begin int x = 1; int x = 2; int y = 3 end,
which redeclares x. -/
def toksC9 : List Tok :=
  [.T_BEGIN, .T_INT, .T_IDENTIFIER "x", .T_ASSIGN, .T_NUMBER 1, .T_SEMICOLON,
   .T_INT, .T_IDENTIFIER "x", .T_ASSIGN, .T_NUMBER 2, .T_SEMICOLON,
   .T_INT, .T_IDENTIFIER "y", .T_ASSIGN, .T_NUMBER 3, .T_END]

/-- Symbol-table invariant: the ghost call counter agrees with lastVar_.first,
every bound address is below the counter, and addresses strictly decrease
along the table (entries are prepended, so this is strict increase in
first-declaration order: no reuse). -/
def Inv (s : St) : Prop :=
  s.declCalls = s.lastVarFst ∧
  (∀ p ∈ s.vars, p.2.1 < s.lastVarFst) ∧
  s.vars.Pairwise (fun p q => q.2.1 < p.2.1)

/-- One parser step from state s to state t preserves: the already emitted
code prefix (later steps only append or patch slots reserved after s), the
error flag once set, and the symbol-table invariant. -/
structure StepOk (s t : St) : Prop where
  len_le : s.code.length ≤ t.code.length
  get_eq : ∀ i, i < s.code.length → t.code[i]? = s.code[i]?
  err : s.error = true → t.error = true
  inv : Inv s → Inv t

theorem stepOkRefl (s : St) : StepOk s s :=
  ⟨le_rfl, fun _ _ => rfl, id, id⟩

theorem StepOk.trans {s t u : St} (h1 : StepOk s t) (h2 : StepOk t u) : StepOk s u := by
  refine ⟨h1.len_le.trans h2.len_le, fun i hi => ?_, fun e => h2.err (h1.err e),
    fun v => h2.inv (h1.inv v)⟩
  rw [h2.get_eq i (lt_of_lt_of_le hi h1.len_le), h1.get_eq i hi]

theorem stepOk_fields {s t : St} (hc : t.code = s.code)
    (he : s.error = true → t.error = true) (hv : t.vars = s.vars)
    (hl : t.lastVarFst = s.lastVarFst) (hd : t.declCalls = s.declCalls) :
    StepOk s t := by
  refine ⟨le_of_eq (by rw [hc]), fun i hi => by rw [hc], he, fun h => ?_⟩
  unfold Inv at h ⊢
  rw [hv, hl, hd]
  exact h

theorem recordPayload_fields (s : St) :
    (recordPayload s).toks = s.toks ∧ (recordPayload s).lastToken = s.lastToken ∧
    (recordPayload s).code = s.code ∧ (recordPayload s).error = s.error ∧
    (recordPayload s).errs = s.errs ∧ (recordPayload s).vars = s.vars ∧
    (recordPayload s).lastVarFst = s.lastVarFst ∧
    (recordPayload s).lastVarSnd = s.lastVarSnd ∧
    (recordPayload s).isFloatCast = s.isFloatCast ∧
    (recordPayload s).declCalls = s.declCalls := by
  unfold recordPayload
  split <;> exact ⟨rfl, rfl, rfl, rfl, rfl, rfl, rfl, rfl, rfl, rfl⟩

theorem advance_fields (s : St) :
    (advance s).toks = s.toks.tail ∧
    (advance s).code = s.code ∧ (advance s).error = s.error ∧
    (advance s).errs = s.errs ∧ (advance s).vars = s.vars ∧
    (advance s).lastVarFst = s.lastVarFst ∧
    (advance s).lastVarSnd = s.lastVarSnd ∧
    (advance s).isFloatCast = s.isFloatCast ∧
    (advance s).declCalls = s.declCalls := by
  unfold advance
  obtain ⟨h1, _, h3, h4, h5, h6, h7, h8, h9, h10⟩ :=
    recordPayload_fields { s with toks := s.toks.tail }
  exact ⟨h1, h3, h4, h5, h6, h7, h8, h9, h10⟩

theorem nextTok_fields (s : St) :
    (nextTok s).toks = s.toks.tail ∧
    (nextTok s).code = s.code ∧ (nextTok s).error = s.error ∧
    (nextTok s).errs = s.errs ∧ (nextTok s).vars = s.vars ∧
    (nextTok s).lastVarFst = s.lastVarFst ∧
    (nextTok s).lastVarSnd = s.lastVarSnd ∧
    (nextTok s).isFloatCast = s.isFloatCast ∧
    (nextTok s).declCalls = s.declCalls := by
  unfold nextTok
  exact advance_fields { s with lastToken := curKind s }

theorem stepOk_advance (s : St) : StepOk s (advance s) :=
  stepOk_fields (advance_fields s).2.1 (fun e => by rw [(advance_fields s).2.2.1]; exact e)
    (advance_fields s).2.2.2.2.1 (advance_fields s).2.2.2.2.2.1
    (advance_fields s).2.2.2.2.2.2.2.2

theorem stepOk_nextTok (s : St) : StepOk s (nextTok s) :=
  stepOk_fields (nextTok_fields s).2.1 (fun e => by rw [(nextTok_fields s).2.2.1]; exact e)
    (nextTok_fields s).2.2.2.2.1 (nextTok_fields s).2.2.2.2.2.1
    (nextTok_fields s).2.2.2.2.2.2.2.2

theorem stepOk_reportError (m : ErrMsg) (s : St) : StepOk s (reportError m s) :=
  stepOk_fields rfl (fun _ => rfl) rfl rfl rfl

theorem stepOk_emit (i : Instr) (s : St) : StepOk s (emit i s) := by
  refine ⟨by simp [emit], fun j hj => ?_, fun e => e, fun h => ?_⟩
  · show (s.code ++ [i])[j]? = s.code[j]?
    exact List.getElem?_append_left hj
  · exact h

theorem stepOk_setCast (s : St) (l : List Bool) :
    StepOk s { s with isFloatCast := l } :=
  stepOk_fields rfl (fun e => e) rfl rfl rfl

theorem stepOk_emitAt_of_le {s t : St} (h : StepOk s t) {a : Nat} (i : Instr)
    (ha : s.code.length ≤ a) : StepOk s (emitAt a i t) := by
  refine ⟨h.len_le.trans (le_of_eq (by simp [emitAt])), fun j hj => ?_, h.err, h.inv⟩
  show (t.code.set a i)[j]? = s.code[j]?
  rw [List.getElem?_set_ne (by omega), h.get_eq j hj]

theorem stepOk_findVariable (name : String) (s : St) :
    StepOk s (findVariable name s).2 := by
  unfold findVariable
  split
  · exact stepOk_reportError _ _
  · exact stepOkRefl s

theorem addVariable_vars_of_none (name : String) (isFloat : Bool) (s : St)
    (hl : List.lookup name s.vars = none) :
    (addVariable name isFloat s).1 = s.lastVarFst ∧
    (addVariable name isFloat s).2 =
      { s with declCalls := s.declCalls + 1, lastVarSnd := isFloat,
               vars := (name, s.lastVarFst, isFloat) :: s.vars,
               lastVarFst := s.lastVarFst + 1 } := by
  unfold addVariable
  simp [hl]

theorem addVariable_vars_of_some (name : String) (isFloat : Bool) (s : St) (v : Nat × Bool)
    (hl : List.lookup name s.vars = some v) :
    (addVariable name isFloat s).1 = s.lastVarFst ∧
    (addVariable name isFloat s).2 =
      reportError (.alreadyDeclared name)
        { s with declCalls := s.declCalls + 1, lastVarFst := s.lastVarFst + 1 } := by
  unfold addVariable
  simp [hl]

theorem stepOk_addVariable (name : String) (isFloat : Bool) (s : St) :
    StepOk s (addVariable name isFloat s).2 := by
  cases hl : List.lookup name s.vars with
  | none =>
    rw [(addVariable_vars_of_none name isFloat s hl).2]
    refine ⟨le_rfl, fun _ _ => rfl, fun e => e, fun h => ?_⟩
    unfold Inv at h ⊢
    obtain ⟨h1, h2, h3⟩ := h
    refine ⟨by simp [h1], ?_, ?_⟩
    · intro p hp
      rcases List.mem_cons.mp hp with h | h
      · rw [h]; exact Nat.lt_succ_self _
      · exact Nat.lt_succ_of_lt (h2 p h)
    · exact List.Pairwise.cons (fun q hq => h2 q hq) h3
  | some v =>
    rw [(addVariable_vars_of_some name isFloat s v hl).2]
    refine ⟨le_rfl, fun _ _ => rfl, fun _ => rfl, fun h => ?_⟩
    unfold Inv at h ⊢
    obtain ⟨h1, h2, h3⟩ := h
    exact ⟨by simp [reportError, h1], fun p hp => Nat.lt_succ_of_lt (h2 p hp), h3⟩

theorem recoverLoop_fields (k : TkKind) (n : Nat) (s : St) :
    (recoverLoop k n s).code = s.code ∧ (recoverLoop k n s).error = s.error ∧
    (recoverLoop k n s).vars = s.vars ∧
    (recoverLoop k n s).lastVarFst = s.lastVarFst ∧
    (recoverLoop k n s).lastVarSnd = s.lastVarSnd ∧
    (recoverLoop k n s).isFloatCast = s.isFloatCast ∧
    (recoverLoop k n s).declCalls = s.declCalls := by
  induction n generalizing s with
  | zero => exact ⟨rfl, rfl, rfl, rfl, rfl, rfl, rfl⟩
  | succ n ih =>
    unfold recoverLoop
    split
    · exact ⟨rfl, rfl, rfl, rfl, rfl, rfl, rfl⟩
    · obtain ⟨h1, h2, h3, h4, h5, h6, h7⟩ := ih (nextTok s)
      obtain ⟨_, g1, g2, _, g3, g4, g5, g6, g7⟩ := nextTok_fields s
      exact ⟨h1.trans g1, h2.trans g2, h3.trans g3, h4.trans g4, h5.trans g5,
        h6.trans g6, h7.trans g7⟩

theorem recover_fields (k : TkKind) (s : St) :
    (recover k s).code = s.code ∧ (recover k s).error = s.error ∧
    (recover k s).vars = s.vars ∧
    (recover k s).lastVarFst = s.lastVarFst ∧
    (recover k s).lastVarSnd = s.lastVarSnd ∧
    (recover k s).isFloatCast = s.isFloatCast ∧
    (recover k s).declCalls = s.declCalls := by
  unfold recover
  obtain ⟨h1, h2, h3, h4, h5, h6, h7⟩ := recoverLoop_fields k (s.toks.length + 1) s
  split
  · obtain ⟨_, g1, g2, _, g3, g4, g5, g6, g7⟩ :=
      nextTok_fields (recoverLoop k (s.toks.length + 1) s)
    exact ⟨g1.trans h1, g2.trans h2, g3.trans h3, g4.trans h4, g5.trans h5,
      g6.trans h6, g7.trans h7⟩
  · exact ⟨h1, h2, h3, h4, h5, h6, h7⟩

theorem mustBe_fields (k : TkKind) (s : St) :
    (mustBe k s).code = s.code ∧ (s.error = true → (mustBe k s).error = true) ∧
    (mustBe k s).vars = s.vars ∧
    (mustBe k s).lastVarFst = s.lastVarFst ∧
    (mustBe k s).lastVarSnd = s.lastVarSnd ∧
    (mustBe k s).isFloatCast = s.isFloatCast ∧
    (mustBe k s).declCalls = s.declCalls := by
  unfold mustBe
  split
  · obtain ⟨_, g1, g2, _, g3, g4, g5, g6, g7⟩ := advance_fields s
    exact ⟨g1, fun e => g2.trans e, g3, g4, g5, g6, g7⟩
  · obtain ⟨h1, h2, h3, h4, h5, h6, h7⟩ :=
      recover_fields k (reportError (.mismatch (curKind s) k) s)
    exact ⟨h1, fun _ => h2, h3, h4, h5, h6, h7⟩

theorem stepOk_mustBe (k : TkKind) (s : St) : StepOk s (mustBe k s) := by
  obtain ⟨h1, h2, h3, h4, _, h6⟩ := mustBe_fields k s
  exact stepOk_fields h1 h2 h3 h4 h6.2

theorem stepOk_setCastOf {s t : St} (h : StepOk s t) (l : List Bool) :
    StepOk s { t with isFloatCast := l } :=
  h.trans (stepOk_setCast t l)

/-- Every recursive-descent procedure only appends code or patches slots it
reserved itself (so the code present on entry is preserved), never clears the
error flag, and preserves the symbol-table invariant. -/
theorem parserOk : ∀ n : Nat,
    (∀ s, StepOk s (statement n s)) ∧ (∀ s, StepOk s (statementList n s)) ∧
    (∀ s, StepOk s (stmtSeq n s)) ∧ (∀ s, StepOk s (expression n s)) ∧
    (∀ s, StepOk s (exprLoop n s)) ∧ (∀ s, StepOk s (term n s)) ∧
    (∀ s, StepOk s (termLoop n s)) ∧ (∀ s, StepOk s (factor n s)) ∧
    (∀ s, StepOk s (relation n s)) := by
  intro n
  induction n with
  | zero =>
    exact ⟨fun s => stepOkRefl s, fun s => stepOkRefl s, fun s => stepOkRefl s,
      fun s => stepOkRefl s, fun s => stepOkRefl s, fun s => stepOkRefl s,
      fun s => stepOkRefl s, fun s => stepOkRefl s, fun s => stepOkRefl s⟩
  | succ n ih =>
    obtain ⟨ihS, ihSL, ihQ, ihE, ihEL, ihT, ihTL, ihF, ihR⟩ := ih
    refine ⟨?_, ?_, ?_, ?_, ?_, ?_, ?_, ?_, ?_⟩
    · intro s
      simp only [statement, reserve, getCurrentAddress]
      split
      · exact (((((stepOk_advance s).trans (stepOk_mustBe _ _)).trans
          (stepOk_addVariable _ _ _)).trans (stepOk_mustBe _ _)).trans
          (ihE _)).trans (stepOk_emit _ _)
      · split
        · exact (((((stepOk_advance s).trans (stepOk_mustBe _ _)).trans
            (stepOk_addVariable _ _ _)).trans (stepOk_mustBe _ _)).trans
            (ihE _)).trans (stepOk_emit _ _)
        · split
          · exact ((((stepOk_advance s).trans (stepOk_findVariable _ _)).trans
              (stepOk_mustBe _ _)).trans (ihE _)).trans (stepOk_emit _ _)
          · split
            · split
              · refine StepOk.trans ?_ (stepOk_mustBe _ _)
                refine stepOk_emitAt_of_le ?_ _ ?_
                · refine StepOk.trans ?_ (ihSL _)
                  refine stepOk_emitAt_of_le ?_ _ ?_
                  · exact (((((stepOk_advance s).trans (ihR _)).trans
                      (stepOk_emit _ _)).trans (stepOk_mustBe _ _)).trans
                      (ihSL _)).trans ((stepOk_advance _).trans (stepOk_emit _ _))
                  · exact ((stepOk_advance s).trans (ihR _)).len_le
                · exact ((((((stepOk_advance s).trans (ihR _)).trans
                    (stepOk_emit _ _)).trans (stepOk_mustBe _ _)).trans
                    (ihSL _)).trans (stepOk_advance _)).len_le
              · refine StepOk.trans ?_ (stepOk_mustBe _ _)
                refine stepOk_emitAt_of_le ?_ _ ?_
                · exact ((((stepOk_advance s).trans (ihR _)).trans
                    (stepOk_emit _ _)).trans (stepOk_mustBe _ _)).trans (ihSL _)
                · exact ((stepOk_advance s).trans (ihR _)).len_le
            · split
              · refine stepOk_emitAt_of_le ?_ _ ?_
                · exact (((((stepOk_advance s).trans (ihR _)).trans
                    (stepOk_emit _ _)).trans (stepOk_mustBe _ _)).trans
                    (ihSL _)).trans ((stepOk_mustBe _ _).trans (stepOk_emit _ _))
                · exact ((stepOk_advance s).trans (ihR _)).len_le
              · split
                · exact ((((stepOk_advance s).trans (stepOk_mustBe _ _)).trans
                    (ihE _)).trans (stepOk_mustBe _ _)).trans (stepOk_emit _ _)
                · exact stepOk_reportError _ _
    · intro s
      simp only [statementList]
      split
      · exact stepOkRefl s
      · exact ihQ s
    · intro s
      simp only [stmtSeq]
      split
      · exact ((ihS s).trans (stepOk_advance _)).trans (ihQ _)
      · exact ihS s
    · intro s
      simp only [expression]
      exact (ihT s).trans (ihEL _)
    · intro s
      simp only [exprLoop]
      split
      · refine StepOk.trans ?_ (ihEL _)
        split
        · exact ((stepOk_nextTok s).trans (ihT _)).trans (stepOk_emit _ _)
        · exact ((stepOk_nextTok s).trans (ihT _)).trans (stepOk_emit _ _)
      · exact stepOkRefl s
    · intro s
      simp only [term]
      exact (ihF s).trans (ihTL _)
    · intro s
      simp only [termLoop]
      split
      · refine StepOk.trans ?_ (ihTL _)
        split
        · exact ((stepOk_nextTok s).trans (ihF _)).trans (stepOk_emit _ _)
        · exact ((stepOk_nextTok s).trans (ihF _)).trans (stepOk_emit _ _)
      · exact stepOkRefl s
    · intro s
      simp only [factor]
      split
      · refine stepOk_setCastOf ?_ _
        repeat' split
        all_goals first
        | exact (stepOk_nextTok s).trans (stepOk_emit _ _)
        | exact stepOk_nextTok s
      · split
        · split
          · exact (stepOk_emit _ _).trans (stepOk_nextTok _)
          · refine stepOk_setCastOf ?_ _
            repeat' split
            all_goals first
            | exact (stepOk_nextTok s).trans (stepOk_emit _ _)
            | exact stepOk_nextTok s
        · split
          · exact ((stepOk_findVariable _ _).trans (stepOk_nextTok _)).trans
              (stepOk_emit _ _)
          · split
            · exact ((stepOk_nextTok s).trans (ihF _)).trans (stepOk_emit _ _)
            · split
              · split
                · exact ((((stepOk_advance s).trans (stepOk_nextTok _)).trans
                    (stepOk_setCast _ _)).trans (stepOk_mustBe _ _)).trans (ihE _)
                · split
                  · exact ((((stepOk_advance s).trans (stepOk_nextTok _)).trans
                      (stepOk_setCast _ _)).trans (stepOk_mustBe _ _)).trans (ihE _)
                  · exact (((stepOk_advance s).trans (stepOk_setCast _ _)).trans
                      (ihE _)).trans (stepOk_mustBe _ _)
              · split
                · exact (stepOk_advance s).trans (stepOk_emit _ _)
                · exact stepOk_reportError _ _
    · intro s
      simp only [relation]
      split
      · exact (((ihE s).trans (stepOk_nextTok _)).trans (ihE _)).trans
          (stepOk_emit _ _)
      · exact (ihE s).trans (stepOk_reportError _ _)

/-- StepOk extended through the whole program procedure. -/
theorem stepOk_program (n : Nat) (s : St) : StepOk s (program n s) :=
  (((stepOk_mustBe .T_BEGIN s).trans ((parserOk n).2.1 _)).trans
    (stepOk_mustBe .T_END _)).trans (stepOk_emit .STOP _)

/-- Recognizer for a floating-point PUSH instruction. -/
def isFloatPush : Instr → Bool
| .PUSH (.VFloat _) => true
| _ => false

/-- C1 counterexample: on begin int x = (float) 3; write(x) end the pass
records zero errors, yet the literal 3 is pushed with integer
representation and no floating-point PUSH occurs anywhere in the emitted
code, refuting the claimed floating-point PUSH. -/
theorem c1_counterexample :
    (program 100 (initSt toksC1)).errs = [] ∧
    (program 100 (initSt toksC1)).code =
      [.PUSH (.VInt 3), .STORE (some 0), .LOAD (some 0), .PRINT, .STOP] ∧
    (program 100 (initSt toksC1)).code.all (fun i => !(isFloatPush i)) = true := by
  exact ⟨by decide, by decide, by decide⟩

/-- C1 amended: for begin int x = (float) 3; write(x) end the parser records
zero errors and emits the literal 3 as an integer PUSH: in factor the
trailing-token test runs before the coercion context is consulted, and since
the literal is followed by a semicolon the declared type of the variable being
assigned (int) decides the representation; the pending (float) cast is ignored
and then discarded. -/
theorem c1_theorem :
    (parse 100 (initSt toksC1)).2 =
      some [.PUSH (.VInt 3), .STORE (some 0), .LOAD (some 0), .PRINT, .STOP] ∧
    (parse 100 (initSt toksC1)).1.errs = [] ∧
    (parse 100 (initSt toksC1)).1.isFloatCast = [] := by
  exact ⟨by decide, by decide, by decide⟩

/-- C2 counterexample: on begin int x = (int) 3 + 4 end the integer literal 3
is parsed with the coercion context equal to the one-element stack with entry
false (pending explicit int cast), and is immediately followed by an additive
operator; the parser emits no PUSH at all for it — the whole output contains
no instruction mentioning the value 3 — refuting the claimed single
integer-representation PUSH. -/
theorem c2_counterexample :
    (program 100 (initSt toksC2)).errs = [] ∧
    (program 100 (initSt toksC2)).code =
      [.PUSH (.VInt 4), .ADD, .STORE (some 0), .STOP] ∧
    Instr.PUSH (.VInt 3) ∉ (program 100 (initSt toksC2)).code ∧
    Instr.PUSH (.VFloat 3) ∉ (program 100 (initSt toksC2)).code := by
  exact ⟨by decide, by decide, by decide, by decide⟩

/-- The intermediate state of the pass over begin int x = 1;
float y = (float) x + 2.5 end at the moment factor is entered on the literal
2.5: the pending (float) cast is still on the coercion stack, and the token
before the literal was the additive operator (lastToken). -/
def sMidC3 : St :=
  { toks := [.T_RNUMBER rat52, .T_END], lastToken := .T_ADDOP, sInt := 1,
    sRat := rat52, sStr := "x", sArith := .A_PLUS, sCmp := .C_EQ,
    code := [.PUSH (.VInt 1), .STORE (some 0), .LOAD (some 0)], error := false,
    errs := [], vars := [("y", 1, true), ("x", 0, false)], lastVarFst := 2,
    lastVarSnd := true, isFloatCast := [true], declCalls := 2 }

/-- C3 counterexample: on begin int x = 1; float y = (float) x + 2.5 end the
float literal 2.5 is reached through the early path of factor (the preceding
token was an operator), which emits its PUSH and returns without draining the
coercion context: the factor call on the (reachable) intermediate state emits
PUSH of 2.5 while returning coercion stack still holding the pending true
entry, and the full pass finishes error-free with the coercion stack still
non-empty — the pending cast flag survived past a literal emission. -/
theorem c3_counterexample :
    ((program 100 (initSt toksC3)).errs = [] ∧
     (program 100 (initSt toksC3)).isFloatCast = [true] ∧
     (program 100 (initSt toksC3)).code =
       [.PUSH (.VInt 1), .STORE (some 0), .LOAD (some 0),
        .PUSH (.VFloat rat52), .ADD, .STORE (some 1), .STOP]) ∧
    ((factor 50 sMidC3).code = sMidC3.code ++ [.PUSH (.VFloat rat52)] ∧
     (factor 50 sMidC3).isFloatCast = [true]) := by
  exact ⟨⟨by decide, by decide, by decide⟩, ⟨by decide, by decide⟩⟩

/-- C6 counterexample: for begin int x = 1; while x < 5 do x = x + 1 od;
write(x) end the patched JUMP_NO (slot 5) targets address 11, the first
instruction emitted for the write statement, while PRINT sits at address 12 —
so the JUMP_NO does not target the address immediately after the PRINT (13),
refuting that part of the claim. -/
theorem c6_counterexample :
    (program 100 (initSt toksC6)).errs = [] ∧
    (program 100 (initSt toksC6)).code =
      [.PUSH (.VInt 1), .STORE (some 0), .LOAD (some 0), .PUSH (.VInt 5),
       .COMPARE 2, .JUMP_NO 11, .LOAD (some 0), .PUSH (.VInt 1), .ADD,
       .STORE (some 0), .JUMP 2, .LOAD (some 0), .PRINT, .STOP] ∧
    (program 100 (initSt toksC6)).code[12]? = some .PRINT ∧
    (program 100 (initSt toksC6)).code[5]? ≠ some (.JUMP_NO 13) := by
  exact ⟨by decide, by decide, by decide, by decide⟩

/-- C6 amended: for begin int x = 1; while x < 5 do x = x + 1 od; write(x)
end the trailing JUMP (address 10) targets address 2, the first instruction
of the condition evaluation, and the patched JUMP_NO (slot 5) targets
address 11, the address immediately after the trailing JUMP — the first
instruction of the code following the loop (the LOAD of the write
statement) — not the address after the PRINT. -/
theorem c6_theorem :
    (program 100 (initSt toksC6)).code[10]? = some (.JUMP 2) ∧
    (program 100 (initSt toksC6)).code[2]? = some (.LOAD (some 0)) ∧
    (program 100 (initSt toksC6)).code[5]? = some (.JUMP_NO 11) ∧
    (program 100 (initSt toksC6)).code[11]? = some (.LOAD (some 0)) ∧
    (program 100 (initSt toksC6)).errs = [] := by
  exact ⟨by decide, by decide, by decide, by decide, by decide⟩

theorem nextTok_code (s : St) : (nextTok s).code = s.code := (nextTok_fields s).2.1

theorem nextTok_isFloatCast (s : St) : (nextTok s).isFloatCast = s.isFloatCast :=
  (nextTok_fields s).2.2.2.2.2.2.2.1

theorem nextTok_toks (s : St) : (nextTok s).toks = s.toks.tail := (nextTok_fields s).1

theorem nextTok_error (s : St) : (nextTok s).error = s.error := (nextTok_fields s).2.2.1

theorem curKind_of_toks {s : St} {x : Tok} {l : List Tok} (h : s.toks = x :: l) :
    curKind s = x.kind := by
  simp [curKind, cur, h]

theorem recordPayload_sRat (s : St) (h : curKind s ≠ .T_RNUMBER) :
    (recordPayload s).sRat = s.sRat := by
  unfold recordPayload
  cases hc : cur s <;> try rfl
  exact absurd (by simp [curKind, hc, Tok.kind]) h

theorem opKind_ne_rnumber {k : TkKind} (h : opKind k) : k ≠ .T_RNUMBER := by
  rcases h with h | h | h <;> simp [h]

/-- Claim C3 (amended): after the handling of every integer-form literal, and
of every float-form literal reached through the main path of factor (the
previously consumed token, as recorded by next, was not an arithmetic or
comparison operator), the coercion context stack is empty; but a float-form
literal reached through the early path of factor (previous token an operator)
has its PUSH emitted with the context left untouched, so a pending cast flag
can survive past that literal emission (see the counterexample). -/
theorem c3_theorem :
    (∀ (n : Nat) (s : St), curKind s = .T_NUMBER →
      (factor (n + 1) s).isFloatCast = []) ∧
    (∀ (n : Nat) (s : St), curKind s = .T_RNUMBER → ¬ opKind s.lastToken →
      (factor (n + 1) s).isFloatCast = []) ∧
    (∀ (n : Nat) (s : St), curKind s = .T_RNUMBER → opKind s.lastToken →
      (factor (n + 1) s).isFloatCast = s.isFloatCast) := by
  refine ⟨?_, ?_, ?_⟩
  · intro n s h
    simp only [factor, h]
    simp
  · intro n s h hop
    simp only [factor, h]
    simp [hop]
  · intro n s h hop
    simp only [factor, h]
    simp [hop, nextTok_isFloatCast, emit]


theorem nextTok_sRat_of (s : St)
    (h : (s.toks.tail.headD Tok.T_EOF).kind ≠ .T_RNUMBER) :
    (nextTok s).sRat = s.sRat := by
  unfold nextTok advance
  exact recordPayload_sRat _ (by simpa [curKind, cur] using h)

theorem nextTok_sRat_of_opKind {s : St} {t : Tok} {r : List Tok}
    (htoks : s.toks = Tok.T_RNUMBER (s.sRat) :: t :: r) (hop : opKind t.kind) :
    (nextTok s).sRat = s.sRat := by
  refine nextTok_sRat_of s ?_
  rw [htoks]
  exact opKind_ne_rnumber hop

/-- Claim C2 (amended): with a pending explicit (int) cast (coercion context
nonempty with outermost entry false) and the literal immediately followed by
an arithmetic or comparison operator, a float-form literal reached through the
main path of factor gets exactly one PUSH, with integer representation of the
truncated literal value, and the context is drained; but an integer-form
literal in the same situation gets no PUSH at all (the code is unchanged),
refuting the claim for integer-form literals. -/
theorem c2_theorem :
    (∀ (n : Nat) (s : St) (t : Tok) (r : List Tok) (cs : List Bool),
      s.toks = .T_RNUMBER (s.sRat) :: t :: r →
      opKind t.kind →
      ¬ opKind s.lastToken →
      s.isFloatCast = false :: cs →
      (factor (n + 1) s).code = s.code ++ [.PUSH (.VInt (ratTrunc s.sRat))] ∧
      (factor (n + 1) s).isFloatCast = []) ∧
    (∀ (n : Nat) (s : St) (v : Int) (t : Tok) (r : List Tok) (cs : List Bool),
      s.toks = .T_NUMBER v :: t :: r →
      opKind t.kind →
      s.isFloatCast = false :: cs →
      (factor (n + 1) s).code = s.code ∧
      (factor (n + 1) s).isFloatCast = []) := by
  constructor
  · intro n s t r cs htoks hop hlast hcast
    have hck : curKind s = .T_RNUMBER := by
      rw [curKind_of_toks htoks]; rfl
    have htn : (nextTok s).toks = t :: r := by
      rw [nextTok_toks, htoks]; rfl
    have hck2 : curKind (nextTok s) = t.kind := curKind_of_toks htn
    have hsr : (nextTok s).sRat = s.sRat := nextTok_sRat_of_opKind htoks hop
    have hcast2 : (nextTok s).isFloatCast = false :: cs := by
      rw [nextTok_isFloatCast, hcast]
    simp only [factor, hck]
    simp [hck2, hop, hcast2, hsr, hlast, emit, nextTok_code]
  · intro n s v t r cs htoks hop hcast
    have hck : curKind s = .T_NUMBER := by
      rw [curKind_of_toks htoks]; rfl
    have htn : (nextTok s).toks = t :: r := by
      rw [nextTok_toks, htoks]; rfl
    have hck2 : curKind (nextTok s) = t.kind := curKind_of_toks htn
    have hcast2 : (nextTok s).isFloatCast = false :: cs := by
      rw [nextTok_isFloatCast, hcast]
    simp only [factor, hck]
    simp [hck2, hop, hcast2, nextTok_code]




/-- Claim C10: when the queried name is present in the symbol table,
findVariable takes the found branch and returns the stored address with the
state unchanged (the not-found branch is unreachable); when it is absent,
findVariable reports the not-declared error and ends without executing a
return statement, modelled by the address value none, and the caller in
factor then emits a LOAD whose address operand is that unspecified none while
the error flag is set. -/
theorem c10_theorem :
    (∀ (s : St) (name : String) (a : Nat) (fl : Bool),
      List.lookup name s.vars = some (a, fl) →
      findVariable name s = (some a, s)) ∧
    (∀ (s : St) (name : String), List.lookup name s.vars = none →
      (findVariable name s).1 = none ∧
      (findVariable name s).2 = reportError (.notDeclared name) s) ∧
    (∀ (n : Nat) (s : St), curKind s = .T_IDENTIFIER →
      List.lookup s.sStr s.vars = none →
      (factor (n + 1) s).code = s.code ++ [.LOAD none] ∧
      (factor (n + 1) s).error = true) := by
  refine ⟨?_, ?_, ?_⟩
  · intro s name a fl hl
    unfold findVariable
    rw [hl]
  · intro s name hl
    unfold findVariable
    rw [hl]
    exact ⟨rfl, rfl⟩
  · intro n s h hl
    simp only [factor, h]
    simp [findVariable, hl, emit, nextTok_code, nextTok_error, reportError]

/-- Claim C8: declaring a name already present in the symbol table records
the already-declared error and leaves the whole table — in particular the
existing binding of that name, its address and float flag — unchanged; the
lastVar float flag is not updated either. -/
theorem c8_theorem :
    ∀ (s : St) (name : String) (isFloat : Bool) (v : Nat × Bool),
      List.lookup name s.vars = some v →
      (addVariable name isFloat s).2.error = true ∧
      ErrMsg.alreadyDeclared name ∈ (addVariable name isFloat s).2.errs ∧
      (addVariable name isFloat s).2.vars = s.vars ∧
      List.lookup name (addVariable name isFloat s).2.vars = some v ∧
      (addVariable name isFloat s).2.lastVarSnd = s.lastVarSnd := by
  intro s name isFloat v hl
  rw [(addVariable_vars_of_some name isFloat s v hl).2]
  refine ⟨rfl, ?_, rfl, ?_, rfl⟩
  · simp [reportError]
  · exact hl

/-- Claim C9: on a redeclaration error addVariable still increments the
global address counter and returns the pre-increment value (equal, by the
invariant, to the number of addVariable calls made before this one), and the
returned address is bound to no variable in the resulting table, so the STORE
emitted for the duplicate declaration targets a fresh unbound address and all
later declarations are shifted up by one address per prior redeclaration. -/
theorem c9_theorem :
    ∀ (s : St) (name : String) (isFloat : Bool) (v : Nat × Bool),
      List.lookup name s.vars = some v → Inv s →
      (addVariable name isFloat s).1 = s.lastVarFst ∧
      (addVariable name isFloat s).1 = s.declCalls ∧
      (addVariable name isFloat s).2.lastVarFst = s.lastVarFst + 1 ∧
      (addVariable name isFloat s).2.declCalls = s.declCalls + 1 ∧
      (∀ p ∈ (addVariable name isFloat s).2.vars,
        p.2.1 ≠ (addVariable name isFloat s).1) := by
  intro s name isFloat v hl hinv
  obtain ⟨h1, h2, h3⟩ := hinv
  obtain ⟨ha, hb⟩ := addVariable_vars_of_some name isFloat s v hl
  rw [ha, hb]
  refine ⟨rfl, h1.symm, rfl, rfl, ?_⟩
  intro p hp
  have : p.2.1 < s.lastVarFst := h2 p (by simpa [reportError] using hp)
  omega

/-- Claim C7: variable addresses are assigned in strict first-declaration
order starting at 0 regardless of the declared type: the initial state
satisfies the symbol-table invariant, the whole pass preserves it, every
addVariable call returns an address equal to the number of addVariable calls
made before its own (the ghost counter declCalls), a successful declaration
binds the name to exactly that address, no already-bound address is ever
returned again (no reuse), and the bound addresses remain strictly ordered by
declaration order. -/
theorem c7_theorem :
    (∀ toks : List Tok, Inv (initSt toks)) ∧
    (∀ (n : Nat) (s : St), Inv s → Inv (program n s)) ∧
    (∀ (s : St) (name : String) (isFloat : Bool), Inv s →
      (addVariable name isFloat s).1 = s.declCalls) ∧
    (∀ (s : St) (name : String) (isFloat : Bool), Inv s →
      List.lookup name s.vars = none →
      List.lookup name (addVariable name isFloat s).2.vars =
        some (s.declCalls, isFloat)) ∧
    (∀ (s : St) (name : String) (isFloat : Bool), Inv s →
      ∀ p ∈ s.vars, p.2.1 ≠ (addVariable name isFloat s).1) ∧
    (∀ (n : Nat) (s : St), Inv s →
      (program n s).vars.Pairwise (fun p q => q.2.1 < p.2.1)) := by
  have hret : ∀ (s : St) (name : String) (isFloat : Bool),
      (addVariable name isFloat s).1 = s.lastVarFst := by
    intro s name isFloat
    cases hl : List.lookup name s.vars with
    | none => exact (addVariable_vars_of_none name isFloat s hl).1
    | some v => exact (addVariable_vars_of_some name isFloat s v hl).1
  refine ⟨?_, ?_, ?_, ?_, ?_, ?_⟩
  · intro toks
    unfold initSt
    obtain ⟨-, -, -, -, -, hv, hl, -, -, hd⟩ :=
      recordPayload_fields
        { toks := toks, lastToken := .T_EOF, sInt := 0, sRat := 0, sStr := "",
          sArith := .A_PLUS, sCmp := .C_EQ, code := [], error := false,
          errs := [], vars := [], lastVarFst := 0, lastVarSnd := false,
          isFloatCast := [], declCalls := 0 }
    refine ⟨by rw [hd, hl], ?_, ?_⟩
    · rw [hv]
      intro p hp
      cases hp
    · rw [hv]
      exact List.Pairwise.nil
  · intro n s h
    exact (stepOk_program n s).inv h
  · intro s name isFloat h
    rw [hret s name isFloat, h.1]
  · intro s name isFloat h hl
    rw [(addVariable_vars_of_none name isFloat s hl).2]
    show List.lookup name ((name, s.lastVarFst, isFloat) :: s.vars) = _
    rw [h.1]
    simp [List.lookup]
  · intro s name isFloat h p hp
    rw [hret s name isFloat]
    exact Nat.ne_of_lt (h.2.1 p hp)
  · intro n s h
    exact ((stepOk_program n s).inv h).2.2

/-- Claim C4: the error flag, once set at any point during the pass, is
never cleared by any recursive-descent procedure, and parse produces output
exactly when the final error flag is false — flush is suppressed whenever at
least one error was recorded, and is invoked once, on the full code buffer,
after the whole program is parsed otherwise. -/
theorem c4_theorem :
    (∀ (n : Nat) (s : St), s.error = true → (statement n s).error = true) ∧
    (∀ (n : Nat) (s : St), s.error = true → (statementList n s).error = true) ∧
    (∀ (n : Nat) (s : St), s.error = true → (expression n s).error = true) ∧
    (∀ (n : Nat) (s : St), s.error = true → (term n s).error = true) ∧
    (∀ (n : Nat) (s : St), s.error = true → (factor n s).error = true) ∧
    (∀ (n : Nat) (s : St), s.error = true → (relation n s).error = true) ∧
    (∀ (k : TkKind) (s : St), s.error = true → (mustBe k s).error = true) ∧
    (∀ (n : Nat) (s : St), s.error = true → (program n s).error = true) ∧
    (∀ (n : Nat) (toks : List Tok),
      ((parse n (initSt toks)).1.error = true → (parse n (initSt toks)).2 = none) ∧
      ((parse n (initSt toks)).1.error = false →
        (parse n (initSt toks)).2 = some (program n (initSt toks)).code)) := by
  refine ⟨fun n s => ((parserOk n).1 s).err, fun n s => ((parserOk n).2.1 s).err,
    fun n s => ((parserOk n).2.2.2.1 s).err, fun n s => ((parserOk n).2.2.2.2.2.1 s).err,
    fun n s => ((parserOk n).2.2.2.2.2.2.2.1 s).err,
    fun n s => ((parserOk n).2.2.2.2.2.2.2.2 s).err,
    fun k s => (stepOk_mustBe k s).err, fun n s => (stepOk_program n s).err, ?_⟩
  intro n toks
  constructor
  · intro h
    have h2 : (program n (initSt toks)).error = true := h
    simp [parse, h2]
  · intro h
    have h2 : (program n (initSt toks)).error = false := h
    simp [parse, h2]



/-- Claim C5: for every if statement with an else branch, the reserved
JUMP_NO placeholder (reserved right after the condition, at the address the
relation left the code at) is patched with the address at which the first
instruction of the else branch will be emitted, and the reserved
unconditional JUMP is patched with the address immediately after the last
instruction of the else branch; in particular for begin if 1 = 2 then
write(1) else write(2) fi end the JUMP_NO at slot 3 is patched to 7, the
address of the first instruction of the else branch (PUSH 2), and the JUMP at
slot 6 is patched to 9, the address right after the PRINT of 2. -/
theorem c5_theorem :
    (∀ (n : Nat) (s : St), curKind s = .T_IF →
      ∀ s5, s5 = statementList n (mustBe .T_THEN (emit .RESERVED (relation n (advance s)))) →
      curKind s5 = .T_ELSE →
      (statement (n + 1) s).code[(relation n (advance s)).code.length]? =
        some (.JUMP_NO (emit .RESERVED (advance s5)).code.length) ∧
      (statement (n + 1) s).code[(advance s5).code.length]? =
        some (.JUMP (statementList n (emitAt (relation n (advance s)).code.length
          (.JUMP_NO (emit .RESERVED (advance s5)).code.length)
          (emit .RESERVED (advance s5)))).code.length) ∧
      (emit .RESERVED (advance s5)).code.length =
        (emitAt (relation n (advance s)).code.length
          (.JUMP_NO (emit .RESERVED (advance s5)).code.length)
          (emit .RESERVED (advance s5))).code.length) ∧
    ((program 100 (initSt toksC5)).errs = [] ∧
     (program 100 (initSt toksC5)).code =
       [.PUSH (.VInt 1), .PUSH (.VInt 2), .COMPARE 0, .JUMP_NO 7, .PUSH (.VInt 1),
        .PRINT, .JUMP 9, .PUSH (.VInt 2), .PRINT, .STOP]) := by
  constructor
  · intro n s hIF s5 hs5 hELSE
    subst hs5
    set S2 := relation n (advance s) with hS2
    set S4 := mustBe .T_THEN (emit .RESERVED S2) with hS4
    set S5 := statementList n S4 with hS5
    set S6 := advance S5 with hS6
    set S7 := emit .RESERVED S6 with hS7
    set S8 := emitAt S2.code.length (.JUMP_NO S7.code.length) S7 with hS8
    set S9 := statementList n S8 with hS9
    have key : statement (n + 1) s =
        mustBe .T_FI (emitAt S6.code.length (.JUMP S9.code.length) S9) := by
      simp only [statement, hIF, reserve, getCurrentAddress, ← hS2, ← hS4, ← hS5,
        hELSE, reduceCtorEq, ite_true, ite_false, ← hS6, ← hS7, ← hS8, ← hS9]
    have l3 : (emit Instr.RESERVED S2).code.length = S2.code.length + 1 := by
      simp [emit]
    have l4 : S4.code.length = S2.code.length + 1 := by
      rw [show S4.code = (emit Instr.RESERVED S2).code from (mustBe_fields _ _).1, l3]
    have l45 : S4.code.length ≤ S5.code.length := ((parserOk n).2.1 S4).len_le
    have l6 : S6.code.length = S5.code.length := by
      rw [(advance_fields S5).2.1]
    have l7 : S7.code.length = S6.code.length + 1 := by
      rw [show S7.code = S6.code ++ [Instr.RESERVED] from rfl]
      simp
    have l8 : S8.code.length = S7.code.length := by
      rw [show S8.code = S7.code.set S2.code.length (.JUMP_NO S7.code.length) from rfl]
      simp
    have l89 : S8.code.length ≤ S9.code.length := ((parserOk n).2.1 S8).len_le
    rw [key, (mustBe_fields _ _).1]
    refine ⟨?_, ?_, l8.symm⟩
    · rw [show (emitAt S6.code.length (.JUMP S9.code.length) S9).code =
          S9.code.set S6.code.length (.JUMP S9.code.length) from rfl]
      rw [List.getElem?_set_ne (by omega)]
      rw [((parserOk n).2.1 S8).get_eq S2.code.length (by omega)]
      rw [show S8.code = S7.code.set S2.code.length (.JUMP_NO S7.code.length) from rfl]
      exact List.getElem?_set_eq_of_lt _ (by omega)
    · rw [show (emitAt S6.code.length (.JUMP S9.code.length) S9).code =
          S9.code.set S6.code.length (.JUMP S9.code.length) from rfl]
      exact List.getElem?_set_eq_of_lt _ (by omega)
  · exact ⟨by decide, by decide⟩



instance (s : St) : Decidable (Inv s) := by
  unfold Inv; infer_instance

/-- Witness state for C2, float-form literal: pending (int) cast, literal
followed by a multiplicative operator. -/
def c2WitRSt : St :=
  { initSt [.T_RNUMBER rat52, .T_MULOP .A_MULTIPLY, .T_NUMBER 7] with
      isFloatCast := [false] }

/-- Witness state for C2, integer-form literal: pending (int) cast, literal
followed by an additive operator. -/
def c2WitNSt : St :=
  { initSt [.T_NUMBER 3, .T_ADDOP .A_PLUS, .T_NUMBER 4] with
      isFloatCast := [false] }

theorem c2_witness :
    (c2WitRSt.toks = .T_RNUMBER (c2WitRSt.sRat) :: Tok.T_MULOP .A_MULTIPLY ::
        [Tok.T_NUMBER 7] ∧
     opKind (Tok.T_MULOP .A_MULTIPLY).kind ∧ ¬ opKind c2WitRSt.lastToken ∧
     c2WitRSt.isFloatCast = false :: [] ∧ ratTrunc c2WitRSt.sRat = 2) ∧
    ((factor 5 c2WitRSt).code =
        c2WitRSt.code ++ [.PUSH (.VInt (ratTrunc c2WitRSt.sRat))] ∧
     (factor 5 c2WitRSt).isFloatCast = []) ∧
    (c2WitNSt.toks = Tok.T_NUMBER 3 :: Tok.T_ADDOP .A_PLUS :: [Tok.T_NUMBER 4] ∧
     opKind (Tok.T_ADDOP .A_PLUS).kind ∧ c2WitNSt.isFloatCast = false :: []) ∧
    ((factor 5 c2WitNSt).code = c2WitNSt.code ∧
     (factor 5 c2WitNSt).isFloatCast = []) := by
  refine ⟨⟨by decide, by decide, by decide, by decide, by decide⟩, ?_,
    ⟨by decide, by decide, by decide⟩, ?_⟩
  · exact c2_theorem.1 4 c2WitRSt (Tok.T_MULOP .A_MULTIPLY) [Tok.T_NUMBER 7] []
      (by decide) (by decide) (by decide) (by decide)
  · exact c2_theorem.2 4 c2WitNSt 3 (Tok.T_ADDOP .A_PLUS) [Tok.T_NUMBER 4] []
      (by decide) (by decide) (by decide)

theorem c3_witness :
    (curKind (initSt [Tok.T_NUMBER 7, Tok.T_SEMICOLON]) = .T_NUMBER ∧
     (factor 3 (initSt [Tok.T_NUMBER 7, Tok.T_SEMICOLON])).isFloatCast = []) ∧
    (curKind (initSt [Tok.T_RNUMBER rat52, Tok.T_END]) = .T_RNUMBER ∧
     ¬ opKind (initSt [Tok.T_RNUMBER rat52, Tok.T_END]).lastToken ∧
     (factor 3 (initSt [Tok.T_RNUMBER rat52, Tok.T_END])).isFloatCast = []) ∧
    (curKind sMidC3 = .T_RNUMBER ∧ opKind sMidC3.lastToken ∧
     (factor 3 sMidC3).isFloatCast = sMidC3.isFloatCast) := by
  refine ⟨⟨by decide, c3_theorem.1 2 _ (by decide)⟩,
    ⟨by decide, by decide, c3_theorem.2.1 2 _ (by decide) (by decide)⟩,
    ⟨by decide, by decide, c3_theorem.2.2 2 _ (by decide) (by decide)⟩⟩

theorem c4_witness :
    ((reportError .statementExpected (initSt [Tok.T_END])).error = true ∧
     (statement 3 (reportError .statementExpected (initSt [Tok.T_END]))).error = true ∧
     (program 3 (reportError .statementExpected (initSt [Tok.T_END]))).error = true) ∧
    ((parse 10 (initSt [Tok.T_END])).1.error = true ∧
     (parse 10 (initSt [Tok.T_END])).2 = none) ∧
    ((parse 10 (initSt [Tok.T_BEGIN, Tok.T_END])).1.error = false ∧
     (parse 10 (initSt [Tok.T_BEGIN, Tok.T_END])).2 = some [Instr.STOP]) := by
  refine ⟨⟨by decide, c4_theorem.1 3 _ (by decide),
    c4_theorem.2.2.2.2.2.2.2.1 3 _ (by decide)⟩, ⟨by decide, ?_⟩,
    ⟨by decide, ?_⟩⟩
  · exact (c4_theorem.2.2.2.2.2.2.2.2 10 [Tok.T_END]).1 (by decide)
  · have h := (c4_theorem.2.2.2.2.2.2.2.2 10 [Tok.T_BEGIN, Tok.T_END]).2 (by decide)
    rw [h]
    rw [show (program 10 (initSt [Tok.T_BEGIN, Tok.T_END])).code = [Instr.STOP]
      from by decide]

theorem c5_witness :
    curKind (mustBe .T_BEGIN (initSt toksC5)) = .T_IF ∧
    curKind (statementList 98 (mustBe .T_THEN (emit .RESERVED (relation 98
      (advance (mustBe .T_BEGIN (initSt toksC5))))))) = .T_ELSE ∧
    (statement 99 (mustBe .T_BEGIN (initSt toksC5))).code[3]? = some (.JUMP_NO 7) ∧
    (statement 99 (mustBe .T_BEGIN (initSt toksC5))).code[6]? = some (.JUMP 9) := by
  have h := c5_theorem.1 98 (mustBe .T_BEGIN (initSt toksC5)) (by decide) _ rfl
    (by decide)
  refine ⟨by decide, by decide, ?_, ?_⟩
  · have h1 := h.1
    have e1 : (relation 98 (advance (mustBe .T_BEGIN (initSt toksC5)))).code.length
        = 3 := by decide
    have e2 : (emit Instr.RESERVED (advance (statementList 98 (mustBe .T_THEN
        (emit Instr.RESERVED (relation 98 (advance (mustBe .T_BEGIN
        (initSt toksC5))))))))).code.length = 7 := by decide
    rw [e1, e2] at h1
    exact h1
  · have h2 := h.2.1
    have e3 : (advance (statementList 98 (mustBe .T_THEN (emit Instr.RESERVED
        (relation 98 (advance (mustBe .T_BEGIN (initSt toksC5)))))))).code.length
        = 6 := by decide
    have e4 : (statementList 98 (emitAt (relation 98 (advance (mustBe .T_BEGIN
        (initSt toksC5)))).code.length (.JUMP_NO (emit Instr.RESERVED (advance
        (statementList 98 (mustBe .T_THEN (emit Instr.RESERVED (relation 98
        (advance (mustBe .T_BEGIN (initSt toksC5))))))))).code.length)
        (emit Instr.RESERVED (advance (statementList 98 (mustBe .T_THEN
        (emit Instr.RESERVED (relation 98 (advance (mustBe .T_BEGIN
        (initSt toksC5))))))))))).code.length = 9 := by decide
    rw [e3, e4] at h2
    exact h2

/-- Witness state for C7: one variable already declared, counters agree. -/
def c7WitSt : St :=
  { initSt [] with vars := [("a", 0, false)], lastVarFst := 1, declCalls := 1 }

theorem c7_witness :
    Inv (initSt [Tok.T_END]) ∧
    Inv c7WitSt ∧
    Inv (program 3 c7WitSt) ∧
    (addVariable "b" false c7WitSt).1 = c7WitSt.declCalls ∧
    List.lookup "b" c7WitSt.vars = none ∧
    List.lookup "b" (addVariable "b" false c7WitSt).2.vars =
      some (c7WitSt.declCalls, false) ∧
    (∀ p ∈ c7WitSt.vars, p.2.1 ≠ (addVariable "b" false c7WitSt).1) := by
  refine ⟨c7_theorem.1 [Tok.T_END], by decide, c7_theorem.2.1 3 c7WitSt (by decide),
    c7_theorem.2.2.1 c7WitSt "b" false (by decide), by decide,
    c7_theorem.2.2.2.1 c7WitSt "b" false (by decide) (by decide),
    c7_theorem.2.2.2.2.1 c7WitSt "b" false (by decide)⟩

/-- Witness state for C8: the name x is already bound to (0, true). -/
def c8WitSt : St :=
  { initSt [] with vars := [("x", 0, true)], lastVarFst := 1, declCalls := 1 }

theorem c8_witness :
    List.lookup "x" c8WitSt.vars = some (0, true) ∧
    (addVariable "x" false c8WitSt).2.error = true ∧
    ErrMsg.alreadyDeclared "x" ∈ (addVariable "x" false c8WitSt).2.errs ∧
    (addVariable "x" false c8WitSt).2.vars = c8WitSt.vars ∧
    List.lookup "x" (addVariable "x" false c8WitSt).2.vars = some (0, true) ∧
    (addVariable "x" false c8WitSt).2.lastVarSnd = c8WitSt.lastVarSnd := by
  have h := c8_theorem c8WitSt "x" false (0, true) (by decide)
  exact ⟨by decide, h.1, h.2.1, h.2.2.1, h.2.2.2.1, h.2.2.2.2⟩

/-- Witness state for C9: same shape as the C8 state. -/
def c9WitSt : St :=
  { initSt [] with vars := [("x", 0, true)], lastVarFst := 1, declCalls := 1 }

theorem c9_witness :
    List.lookup "x" c9WitSt.vars = some (0, true) ∧ Inv c9WitSt ∧
    (addVariable "x" false c9WitSt).1 = c9WitSt.lastVarFst ∧
    (addVariable "x" false c9WitSt).1 = c9WitSt.declCalls ∧
    (addVariable "x" false c9WitSt).2.lastVarFst = c9WitSt.lastVarFst + 1 ∧
    (addVariable "x" false c9WitSt).2.declCalls = c9WitSt.declCalls + 1 ∧
    (∀ p ∈ (addVariable "x" false c9WitSt).2.vars,
      p.2.1 ≠ (addVariable "x" false c9WitSt).1) := by
  have h := c9_theorem c9WitSt "x" false (0, true) (by decide) (by decide)
  exact ⟨by decide, by decide, h.1, h.2.1, h.2.2.1, h.2.2.2.1, h.2.2.2.2⟩

/-- Witness state for C10: current token is the identifier z (undeclared),
while w is declared at address 0. -/
def c10WitSt : St :=
  { initSt [Tok.T_IDENTIFIER "z", Tok.T_END] with
      vars := [("w", 0, false)], lastVarFst := 1, declCalls := 1 }

theorem c10_witness :
    (List.lookup "w" c10WitSt.vars = some (0, false) ∧
     findVariable "w" c10WitSt = (some 0, c10WitSt)) ∧
    (List.lookup "q" c10WitSt.vars = none ∧
     (findVariable "q" c10WitSt).1 = none ∧
     (findVariable "q" c10WitSt).2 = reportError (.notDeclared "q") c10WitSt) ∧
    (curKind c10WitSt = .T_IDENTIFIER ∧
     List.lookup c10WitSt.sStr c10WitSt.vars = none ∧
     (factor 4 c10WitSt).code = c10WitSt.code ++ [.LOAD none] ∧
     (factor 4 c10WitSt).error = true) := by
  have h2 := c10_theorem.2.1 c10WitSt "q" (by decide)
  have h3 := c10_theorem.2.2 3 c10WitSt (by decide) (by decide)
  exact ⟨⟨by decide, c10_theorem.1 c10WitSt "w" 0 false (by decide)⟩,
    ⟨by decide, h2.1, h2.2⟩, ⟨by decide, by decide, h3.1, h3.2⟩⟩

end Cmilan
